import Mathlib

/-!
Verification of the dumb-charades movie-game backend
(`src/backend/server.py`) against its specification.

The Python backend is shallowly embedded: pydantic models become Lean
structures, each HTTP handler becomes a pure function from the relevant
store state to a result, and the only nondeterminism (`random.choice`
and `uuid.uuid4`) is made explicit — the movie selector returns the full
candidate pool that `random.choice` draws from, and fresh identifiers
are taken as parameters.
-/

set_option autoImplicit false

namespace Charades

/-- `Movie` model of server.py: catalogue entry with an id, a title,
release year, two principal-cast names, a word count, a difficulty tier
(stored as a plain string: easy / medium / hard) and an optional genre. -/
structure Movie where
  id : String
  title : String
  year : Int
  hero : String
  heroine : String
  word_count : Nat
  difficulty : String
  genre : Option String
deriving DecidableEq, Repr

/-- `Player` model of server.py: a uuid identifier plus a display name. -/
structure Player where
  id : String
  name : String
deriving DecidableEq, Repr

/-- `Team` model of server.py: a name ("Team A" / "Team B"), the ordered
player list, and an integer score starting at 0 and only ever
incremented (hence `Nat`). There is no further field: in particular the
model carries no acting-player index. -/
structure Team where
  name : String
  players : List Player
  score : Nat
deriving DecidableEq, Repr

/-- `GameSettings` model of server.py. -/
structure GameSettings where
  timer_seconds : Int
  total_rounds : Int
  difficulty : String
deriving DecidableEq, Repr

/-- `Game` model of server.py. `created_at` (a timestamp irrelevant to
every state transition) is omitted; all other fields are kept. -/
structure Game where
  id : String
  team_a : Team
  team_b : Team
  settings : GameSettings
  current_turn : String
  current_round : Int
  used_movie_ids : List String
  status : String
  winner : Option String
deriving DecidableEq, Repr

/-- `create_game` handler: builds the two teams from the requested name
lists (fresh uuid player ids are supplied by `pidA`, `pidB`, the game's
own uuid by `gid`) and a `Game` with the pydantic defaults:
turn `team_a`, round 1, no used movies, status `active`, no winner. -/
def create_game (gid : String) (pidA pidB : Nat → String)
    (team_a_players team_b_players : List String) (s : GameSettings) : Game :=
  { id := gid
  , team_a :=
      { name := "Team A"
      , players := team_a_players.enum.map fun p => { id := pidA p.1, name := p.2 }
      , score := 0 }
  , team_b :=
      { name := "Team B"
      , players := team_b_players.enum.map fun p => { id := pidB p.1, name := p.2 }
      , score := 0 }
  , settings := s
  , current_turn := "team_a"
  , current_round := 1
  , used_movie_ids := []
  , status := "active"
  , winner := none }

/-- First block of the `submit_turn` handler ("Update score if
correct"): when `correct`, increment the score of the team selected by
`current_turn` (the `else` of the Python `if` sends every value other
than `"team_a"` to team_b). -/
def scoreStep (g : Game) (correct : Bool) : Game :=
  if correct then
    if g.current_turn = "team_a" then
      { g with team_a := { g.team_a with score := g.team_a.score + 1 } }
    else
      { g with team_b := { g.team_b with score := g.team_b.score + 1 } }
  else g

/-- Second block of the `submit_turn` handler ("Switch turns"): pass
the turn to team_b when team_a held it, otherwise back to team_a with a
round increment. -/
def switchStep (g : Game) : Game :=
  if g.current_turn = "team_a" then
    { g with current_turn := "team_b" }
  else
    { g with current_turn := "team_a", current_round := g.current_round + 1 }

/-- Third block of the `submit_turn` handler ("Check if game is over"):
when the round counter has passed `total_rounds`, mark the game
completed and compute the winner from the current scores. -/
def finishStep (g : Game) : Game :=
  if g.current_round > g.settings.total_rounds then
    { g with
      status := "completed"
      winner := some (if g.team_a.score > g.team_b.score then "Team A"
        else if g.team_b.score > g.team_a.score then "Team B"
        else "Draw") }
  else g

/-- The full state transition of the `submit_turn` handler on a fetched
game (server.py lines 304-327): its three blocks in source order. -/
def applyTurn (g : Game) (correct : Bool) : Game :=
  finishStep (switchStep (scoreStep g correct))

/-- Iterate `applyTurn` over a list of turn outcomes. -/
def runTurns (g : Game) : List Bool → Game
  | [] => g
  | c :: cs => runTurns (applyTurn g c) cs

/-- The exclusion list derived from the optional `exclude_ids` query
parameter of `get_random_movie`: the handler splits it on commas, but
only when the string is present and truthy (non-empty). -/
def excludeListOf : Option String → List String
  | none => []
  | some s => if s = "" then [] else s.splitOn ","

/-- The Mongo query filter built by `get_random_movie`: the difficulty
field must match when the parameter is truthy and different from
`"all"`, and the id must not be in the exclusion list (no `$nin` clause
is added when `exclude_ids` is absent, which excludes nothing). -/
def movieQuery (difficulty : String) (exclude_ids : Option String) (m : Movie) : Bool :=
  (decide (difficulty = "") || decide (difficulty = "all") || decide (m.difficulty = difficulty))
    && decide (m.id ∉ excludeListOf exclude_ids)

/-- The `get_random_movie` handler as a function of the movies
collection: it runs the query (capped at 1000 documents by
`to_list(1000)`), raises 404 "No movies available" when no document
matches, and otherwise picks one matching movie with `random.choice`.
The returned list is the exact candidate pool that `random.choice`
draws from. The handler consults no state other than the movies
collection and performs no write. -/
def get_random_movie (movies : List Movie) (difficulty : String)
    (exclude_ids : Option String) : Except String (List Movie) :=
  if ((movies.filter (movieQuery difficulty exclude_ids)).take 1000).isEmpty then
    Except.error "No movies available"
  else
    Except.ok ((movies.filter (movieQuery difficulty exclude_ids)).take 1000)

/-- Append `mid` to the `used_movie_ids` of the first game whose id is
`gid` (the effect of Mongo's `update_one` with a `$push`); any state
with no matching game is returned unchanged. -/
def pushUsed (gid mid : String) : List Game → List Game
  | [] => []
  | g :: gs =>
      if g.id = gid then
        { g with used_movie_ids := g.used_movie_ids ++ [mid] } :: gs
      else g :: pushUsed gid mid gs

/-- The Mongo database as server.py accesses it. Its handlers only ever
read or write the `movies` and `games` collections; `global_used`
stands for the GlobalUsedMovies singleton that the specification
posits, and no handler in server.py references it. -/
structure ServerState where
  movies : List Movie
  games : List Game
  global_used : List String
deriving DecidableEq, Repr

/-- The `get_random_movie` handler as an operation on the full store:
it reads `movies` only and performs no write, so the state component of
a successful result is the input state itself. -/
def getRandomMovieOp (st : ServerState) (difficulty : String)
    (exclude_ids : Option String) : Except String (List Movie × ServerState) :=
  match get_random_movie st.movies difficulty exclude_ids with
  | Except.error e => Except.error e
  | Except.ok pool => Except.ok (pool, st)

/-- The `add_used_movie` handler: one `update_one` pushing `movie_id`
onto the matched game's `used_movie_ids`; when `modified_count` is 0
(no game with that id, so nothing was changed) it raises 404
"Game not found". It touches no other collection. -/
def add_used_movie (st : ServerState) (game_id movie_id : String) :
    Except String ServerState :=
  if st.games.any (fun g => g.id = game_id) then
    Except.ok { st with games := pushUsed game_id movie_id st.games }
  else
    Except.error "Game not found"

/-- Modelled from the spec: the `selectRandomMovie` contract of §4.1,
whose GlobalUsedMovies exclusion and reset-on-exhaustion fallback are
absent from src/backend/server.py. Eligible movies are those matching
the difficulty filter minus the global used set and the caller
exclusions; when that set is empty the global set is cleared and the
eligible set recomputed against the caller exclusions alone, failing
with NotFound only if it is still empty. The first component of a
successful result is the pool the uniform pick is drawn from, the
second the resulting global used set. -/
def selectRandomMovieSpec (movies : List Movie) (globalUsed : List String)
    (difficulty : String) (callerExcluded : List String) :
    Except String (List Movie × List String) :=
  let matchesFilter := movies.filter fun m =>
    decide (difficulty = "all") || decide (m.difficulty = difficulty)
  let eligible := matchesFilter.filter fun m =>
    decide (m.id ∉ globalUsed) && decide (m.id ∉ callerExcluded)
  if eligible.isEmpty then
    let eligible2 := matchesFilter.filter fun m => decide (m.id ∉ callerExcluded)
    if eligible2.isEmpty then Except.error "no movies available"
    else Except.ok (eligible2, [])
  else Except.ok (eligible, globalUsed)

/-- The invariant of §3 and §8 of the spec: a game is completed exactly
when its round counter has passed the configured total, and a winner is
recorded exactly on completed games. -/
def GameInv (g : Game) : Prop :=
  (g.status = "completed" ↔ g.current_round > g.settings.total_rounds) ∧
  (g.winner ≠ none ↔ g.status = "completed")

/-- A fixed uuid supply for concrete witness states. -/
def pid0 : Nat → String := fun _ => "pid"

/-- A concrete easy catalogue entry for witness states. -/
def mEasy1 : Movie :=
  { id := "m1", title := "Sholay", year := 1975, hero := "Amitabh Bachchan"
  , heroine := "Hema Malini", word_count := 1, difficulty := "easy"
  , genre := some "Action" }

/-- The settings of the scenario in §8 of the spec. -/
def sampleSettings : GameSettings :=
  { timer_seconds := 60, total_rounds := 5, difficulty := "all" }

/-- The freshly created 2-versus-2 game of the scenario in §8. -/
def gEx : Game :=
  create_game "g1" pid0 pid0 ["Rajesh", "Priya"] ["Amit", "Sunita"] sampleSettings

/-- A concrete game already in the completed state. -/
def gDone : Game :=
  { gEx with status := "completed", current_round := 6, winner := some "Draw" }

/-- A store whose only (easy) movie is marked in the posited global
used set. -/
def stC5 : ServerState :=
  { movies := [mEasy1], games := [], global_used := ["m1"] }

/-- A store with one game and one easy movie, nothing used yet. -/
def stC8 : ServerState :=
  { movies := [mEasy1], games := [gEx], global_used := [] }

/-- `stC8` after recording movie "m1" as used for game "g1". -/
def stC8after : ServerState :=
  { movies := [mEasy1], games := [{ gEx with used_movie_ids := ["m1"] }]
  , global_used := [] }

/-- A store with an empty movie catalogue. -/
def stEmpty : ServerState :=
  { movies := [], games := [], global_used := [] }

theorem scoreStep_fields (g : Game) (c : Bool) :
    (scoreStep g c).current_turn = g.current_turn ∧
    (scoreStep g c).current_round = g.current_round ∧
    (scoreStep g c).status = g.status ∧
    (scoreStep g c).winner = g.winner ∧
    (scoreStep g c).settings = g.settings ∧
    (scoreStep g c).team_a.players = g.team_a.players ∧
    (scoreStep g c).team_b.players = g.team_b.players ∧
    (scoreStep g c).team_a.name = g.team_a.name ∧
    (scoreStep g c).team_b.name = g.team_b.name := by
  unfold scoreStep
  split
  · split <;> exact ⟨rfl, rfl, rfl, rfl, rfl, rfl, rfl, rfl, rfl⟩
  · exact ⟨rfl, rfl, rfl, rfl, rfl, rfl, rfl, rfl, rfl⟩

theorem scoreStep_false (g : Game) : scoreStep g false = g := by
  unfold scoreStep; simp

theorem scoreStep_true_a (g : Game) (h : g.current_turn = "team_a") :
    scoreStep g true =
      { g with team_a := { g.team_a with score := g.team_a.score + 1 } } := by
  unfold scoreStep; simp [h]

theorem scoreStep_true_b (g : Game) (h : ¬ g.current_turn = "team_a") :
    scoreStep g true =
      { g with team_b := { g.team_b with score := g.team_b.score + 1 } } := by
  unfold scoreStep; simp [h]

theorem switchStep_fields (g : Game) :
    (switchStep g).team_a = g.team_a ∧
    (switchStep g).team_b = g.team_b ∧
    (switchStep g).status = g.status ∧
    (switchStep g).winner = g.winner ∧
    (switchStep g).settings = g.settings := by
  unfold switchStep
  split <;> exact ⟨rfl, rfl, rfl, rfl, rfl⟩

theorem switchStep_a (g : Game) (h : g.current_turn = "team_a") :
    switchStep g = { g with current_turn := "team_b" } := by
  unfold switchStep; simp [h]

theorem switchStep_b (g : Game) (h : ¬ g.current_turn = "team_a") :
    switchStep g =
      { g with current_turn := "team_a", current_round := g.current_round + 1 } := by
  unfold switchStep; simp [h]

theorem finishStep_fields (g : Game) :
    (finishStep g).current_turn = g.current_turn ∧
    (finishStep g).current_round = g.current_round ∧
    (finishStep g).settings = g.settings ∧
    (finishStep g).team_a = g.team_a ∧
    (finishStep g).team_b = g.team_b := by
  unfold finishStep
  split <;> exact ⟨rfl, rfl, rfl, rfl, rfl⟩

theorem finishStep_of_gt (g : Game)
    (h : g.current_round > g.settings.total_rounds) :
    finishStep g =
      { g with
        status := "completed"
        winner := some (if g.team_a.score > g.team_b.score then "Team A"
          else if g.team_b.score > g.team_a.score then "Team B"
          else "Draw") } := by
  unfold finishStep; rw [if_pos h]

theorem finishStep_of_le (g : Game)
    (h : ¬ g.current_round > g.settings.total_rounds) :
    finishStep g = g := by
  unfold finishStep; rw [if_neg h]

theorem applyTurn_team_a (g : Game) (c : Bool) :
    (applyTurn g c).team_a = (scoreStep g c).team_a := by
  unfold applyTurn
  rw [(finishStep_fields _).2.2.2.1, (switchStep_fields _).1]

theorem applyTurn_team_b (g : Game) (c : Bool) :
    (applyTurn g c).team_b = (scoreStep g c).team_b := by
  unfold applyTurn
  rw [(finishStep_fields _).2.2.2.2, (switchStep_fields _).2.1]

theorem applyTurn_settings (g : Game) (c : Bool) :
    (applyTurn g c).settings = g.settings := by
  unfold applyTurn
  rw [(finishStep_fields _).2.2.1, (switchStep_fields _).2.2.2.2,
    (scoreStep_fields g c).2.2.2.2.1]

theorem applyTurn_turn_round_a (g : Game) (c : Bool)
    (h : g.current_turn = "team_a") :
    (applyTurn g c).current_turn = "team_b" ∧
    (applyTurn g c).current_round = g.current_round := by
  unfold applyTurn
  have hT : (scoreStep g c).current_turn = "team_a" :=
    (scoreStep_fields g c).1.trans h
  rw [switchStep_a _ hT]
  exact ⟨(finishStep_fields _).1, ((finishStep_fields _).2.1).trans (scoreStep_fields g c).2.1⟩

theorem applyTurn_turn_round_b (g : Game) (c : Bool)
    (h : ¬ g.current_turn = "team_a") :
    (applyTurn g c).current_turn = "team_a" ∧
    (applyTurn g c).current_round = g.current_round + 1 := by
  unfold applyTurn
  have hT : ¬ (scoreStep g c).current_turn = "team_a" := by
    rw [(scoreStep_fields g c).1]; exact h
  rw [switchStep_b _ hT]
  refine ⟨(finishStep_fields _).1, ((finishStep_fields _).2.1).trans ?_⟩
  show (scoreStep g c).current_round + 1 = g.current_round + 1
  rw [(scoreStep_fields g c).2.1]

theorem switchStep_round_cases (g : Game) :
    (switchStep g).current_round = g.current_round ∨
    (switchStep g).current_round = g.current_round + 1 := by
  unfold switchStep
  split
  · exact Or.inl rfl
  · exact Or.inr rfl

theorem GameInv_applyTurn (g : Game) (c : Bool) (h : GameInv g) :
    GameInv (applyTurn g c) := by
  obtain ⟨h1, h2⟩ := h
  unfold applyTurn
  have hsst : (switchStep (scoreStep g c)).status = g.status :=
    ((switchStep_fields _).2.2.1).trans (scoreStep_fields g c).2.2.1
  have hsw : (switchStep (scoreStep g c)).winner = g.winner :=
    ((switchStep_fields _).2.2.2.1).trans (scoreStep_fields g c).2.2.2.1
  have hstr : (switchStep (scoreStep g c)).settings = g.settings :=
    ((switchStep_fields _).2.2.2.2).trans (scoreStep_fields g c).2.2.2.2.1
  have hsr : (switchStep (scoreStep g c)).current_round = g.current_round ∨
      (switchStep (scoreStep g c)).current_round = g.current_round + 1 := by
    rcases switchStep_round_cases (scoreStep g c) with hc | hc <;>
      rw [hc, (scoreStep_fields g c).2.1]
    · exact Or.inl rfl
    · exact Or.inr rfl
  by_cases hgt : (switchStep (scoreStep g c)).current_round >
      (switchStep (scoreStep g c)).settings.total_rounds
  · rw [finishStep_of_gt _ hgt]
    exact ⟨⟨fun _ => hgt, fun _ => rfl⟩, by simp⟩
  · rw [finishStep_of_le _ hgt]
    have hact : g.status ≠ "completed" := by
      intro hc
      have hr := h1.mp hc
      rw [hstr] at hgt
      rcases hsr with he | he <;> rw [he] at hgt <;> omega
    have hwn : g.winner = none := by
      by_contra hne
      exact hact (h2.mp hne)
    refine ⟨⟨fun hc => absurd (hsst ▸ hc) hact, fun hr => absurd hr hgt⟩, ?_⟩
    rw [hsw, hsst, hwn]
    exact ⟨fun hne => absurd rfl hne, fun hc => absurd hc hact⟩

theorem GameInv_runTurns (cs : List Bool) (g : Game) (h : GameInv g) :
    GameInv (runTurns g cs) := by
  induction cs generalizing g with
  | nil => exact h
  | cons c cs ih => exact ih _ (GameInv_applyTurn g c h)

theorem GameInv_create_game (gid : String) (pidA pidB : Nat → String)
    (ta tb : List String) (s : GameSettings) (h : 0 < s.total_rounds) :
    GameInv (create_game gid pidA pidB ta tb s) := by
  constructor
  · constructor
    · intro hc
      exact absurd hc (by simp [create_game])
    · intro hr
      have : (1 : Int) > s.total_rounds := hr
      omega
  · constructor
    · intro hne
      exact absurd rfl hne
    · intro hc
      exact absurd hc (by simp [create_game])

/-- C1: every game reachable by creating a game with
`settings.total_rounds > 0` and applying any sequence of `submit_turn`
transitions satisfies the invariant: `status = "completed"` iff
`current_round > settings.total_rounds`, and `winner` is non-null iff
`status = "completed"`. -/
theorem claim_C1 (gid : String) (pidA pidB : Nat → String)
    (ta tb : List String) (s : GameSettings) (cs : List Bool)
    (h : 0 < s.total_rounds) :
    GameInv (runTurns (create_game gid pidA pidB ta tb s) cs) :=
  GameInv_runTurns cs _ (GameInv_create_game gid pidA pidB ta tb s h)

theorem claim_C1_witness :
    (0 : Int) < sampleSettings.total_rounds ∧
    GameInv (runTurns (create_game "g1" pid0 pid0 ["Rajesh", "Priya"]
      ["Amit", "Sunita"] sampleSettings) [true, false, true]) :=
  ⟨by decide,
   claim_C1 "g1" pid0 pid0 ["Rajesh", "Priya"] ["Amit", "Sunita"]
     sampleSettings [true, false, true] (by decide)⟩

/-- C2: on an active game, a correct turn adds exactly 1 to the score
of the team selected by `current_turn` and leaves the other team's
score unchanged; an incorrect turn changes neither score. -/
theorem claim_C2 (g : Game) (c : Bool) (_hact : g.status = "active") :
    (c = true → g.current_turn = "team_a" →
      (applyTurn g c).team_a.score = g.team_a.score + 1 ∧
      (applyTurn g c).team_b.score = g.team_b.score) ∧
    (c = true → g.current_turn = "team_b" →
      (applyTurn g c).team_b.score = g.team_b.score + 1 ∧
      (applyTurn g c).team_a.score = g.team_a.score) ∧
    (c = false →
      (applyTurn g c).team_a.score = g.team_a.score ∧
      (applyTurn g c).team_b.score = g.team_b.score) := by
  refine ⟨fun hc ha => ?_, fun hc hb => ?_, fun hc => ?_⟩
  · subst hc
    rw [applyTurn_team_a, applyTurn_team_b, scoreStep_true_a g ha]
    exact ⟨rfl, rfl⟩
  · subst hc
    have hna : ¬ g.current_turn = "team_a" := by rw [hb]; decide
    rw [applyTurn_team_a, applyTurn_team_b, scoreStep_true_b g hna]
    exact ⟨rfl, rfl⟩
  · subst hc
    rw [applyTurn_team_a, applyTurn_team_b, scoreStep_false g]
    exact ⟨rfl, rfl⟩

theorem claim_C2_witness :
    gEx.status = "active" ∧
    (applyTurn gEx true).team_a.score = gEx.team_a.score + 1 ∧
    (applyTurn gEx true).team_b.score = gEx.team_b.score :=
  ⟨rfl, (claim_C2 gEx true rfl).1 rfl rfl⟩

theorem runTurns_turn_round (cs : List Bool) (g : Game) :
    (g.current_turn = "team_a" →
      (runTurns g cs).current_turn =
        (if cs.length % 2 = 0 then "team_a" else "team_b") ∧
      (runTurns g cs).current_round =
        g.current_round + ((cs.length / 2 : Nat) : Int)) ∧
    (g.current_turn = "team_b" →
      (runTurns g cs).current_turn =
        (if (cs.length + 1) % 2 = 0 then "team_a" else "team_b") ∧
      (runTurns g cs).current_round =
        g.current_round + (((cs.length + 1) / 2 : Nat) : Int)) := by
  induction cs generalizing g with
  | nil =>
      refine ⟨fun ha => ⟨by simp [runTurns, ha], by simp [runTurns]⟩,
        fun hb => ⟨by simp [runTurns, hb], by simp [runTurns]⟩⟩
  | cons c cs ih =>
      constructor
      · intro ha
        obtain ⟨ht, hr⟩ := applyTurn_turn_round_a g c ha
        obtain ⟨iht, ihr⟩ := (ih (applyTurn g c)).2 ht
        refine ⟨by simpa using iht, ?_⟩
        show (runTurns (applyTurn g c) cs).current_round =
          g.current_round + (((c :: cs).length / 2 : Nat) : Int)
        rw [ihr, hr]
        simp [List.length_cons]
      · intro hb
        have hnb : ¬ g.current_turn = "team_a" := by rw [hb]; decide
        obtain ⟨ht, hr⟩ := applyTurn_turn_round_b g c hnb
        obtain ⟨iht, ihr⟩ := (ih (applyTurn g c)).1 ht
        constructor
        · show (runTurns (applyTurn g c) cs).current_turn =
            (if ((c :: cs).length + 1) % 2 = 0 then "team_a" else "team_b")
          rw [iht]
          have : ((c :: cs).length + 1) % 2 = cs.length % 2 := by
            simp only [List.length_cons]
            omega
          rw [this]
        · show (runTurns (applyTurn g c) cs).current_round =
            g.current_round + ((((c :: cs).length + 1) / 2 : Nat) : Int)
          rw [ihr, hr]
          have : ((c :: cs).length + 1) / 2 = cs.length / 2 + 1 := by
            simp [List.length_cons]
            omega
          rw [this]
          push_cast
          ring

/-- C3: `submit_turn` from team_a passes the turn to team_b with the
round unchanged, and from team_b back to team_a with the round
incremented by exactly 1, for either value of `correct`; consequently,
starting from a freshly created game, the active team after n turns is
team_a exactly when n is even, and the round is 1 plus the number of
completed team_a/team_b cycles. -/
theorem claim_C3 (g : Game) (c : Bool) (gid : String)
    (pidA pidB : Nat → String) (ta tb : List String) (s : GameSettings)
    (cs : List Bool) :
    (g.current_turn = "team_a" →
      (applyTurn g c).current_turn = "team_b" ∧
      (applyTurn g c).current_round = g.current_round) ∧
    (g.current_turn = "team_b" →
      (applyTurn g c).current_turn = "team_a" ∧
      (applyTurn g c).current_round = g.current_round + 1) ∧
    ((runTurns (create_game gid pidA pidB ta tb s) cs).current_turn =
      (if cs.length % 2 = 0 then "team_a" else "team_b") ∧
     (runTurns (create_game gid pidA pidB ta tb s) cs).current_round =
      1 + ((cs.length / 2 : Nat) : Int)) := by
  refine ⟨applyTurn_turn_round_a g c, ?_, ?_⟩
  · intro hb
    exact applyTurn_turn_round_b g c (by rw [hb]; decide)
  · exact (runTurns_turn_round cs (create_game gid pidA pidB ta tb s)).1 rfl

theorem claim_C3_witness :
    gEx.current_turn = "team_a" ∧
    (applyTurn gEx true).current_turn = "team_b" ∧
    (applyTurn gEx true).current_round = gEx.current_round ∧
    (runTurns gEx [true, false, true]).current_turn = "team_b" ∧
    (runTurns gEx [true, false, true]).current_round = 1 + ((1 : Nat) : Int) := by
  have h := claim_C3 gEx true "g1" pid0 pid0 ["Rajesh", "Priya"]
    ["Amit", "Sunita"] sampleSettings [true, false, true]
  exact ⟨rfl, (h.1 rfl).1, (h.1 rfl).2, h.2.2.1, h.2.2.2⟩

theorem applyTurn_finish (g : Game) (c : Bool)
    (h : (applyTurn g c).current_round > (applyTurn g c).settings.total_rounds) :
    (applyTurn g c).status = "completed" ∧
    (applyTurn g c).winner = some
      (if (applyTurn g c).team_a.score > (applyTurn g c).team_b.score then "Team A"
       else if (applyTurn g c).team_b.score > (applyTurn g c).team_a.score then "Team B"
       else "Draw") := by
  unfold applyTurn at *
  have hgt : (switchStep (scoreStep g c)).current_round >
      (switchStep (scoreStep g c)).settings.total_rounds := by
    rw [(finishStep_fields _).2.1, (finishStep_fields _).2.2.1] at h
    exact h
  rw [finishStep_of_gt _ hgt]
  exact ⟨rfl, rfl⟩

/-- C4: whenever `submit_turn` results in
`current_round > settings.total_rounds`, the resulting game is
completed with winner "Team A" when team_a's (new) score is strictly
greater, "Team B" when team_b's is strictly greater, and "Draw" when
the scores are equal. -/
theorem claim_C4 (g : Game) (c : Bool)
    (h : (applyTurn g c).current_round > (applyTurn g c).settings.total_rounds) :
    (applyTurn g c).status = "completed" ∧
    ((applyTurn g c).team_a.score > (applyTurn g c).team_b.score →
      (applyTurn g c).winner = some "Team A") ∧
    ((applyTurn g c).team_b.score > (applyTurn g c).team_a.score →
      (applyTurn g c).winner = some "Team B") ∧
    ((applyTurn g c).team_a.score = (applyTurn g c).team_b.score →
      (applyTurn g c).winner = some "Draw") := by
  obtain ⟨hst, hw⟩ := applyTurn_finish g c h
  refine ⟨hst, fun hab => ?_, fun hba => ?_, fun heq => ?_⟩
  · rw [hw, if_pos hab]
  · rw [hw, if_neg (by omega), if_pos hba]
  · rw [hw, if_neg (by omega), if_neg (by omega)]

theorem claim_C4_witness :
    (applyTurn { gDone with current_turn := "team_b" } true).current_round >
      (applyTurn { gDone with current_turn := "team_b" } true).settings.total_rounds ∧
    (applyTurn { gDone with current_turn := "team_b" } true).status = "completed" ∧
    (applyTurn { gDone with current_turn := "team_b" } true).winner = some "Team B" := by
  have h := claim_C4 { gDone with current_turn := "team_b" } true (by decide)
  exact ⟨by decide, h.1, h.2.2.1 (by decide)⟩

/-- C9 (implicit): `submit_turn` performs no status check, so on a game
already completed it still updates the score, flips the turn, possibly
increments the round, and recomputes the winner from the new scores. -/
theorem claim_C9 (g : Game) (c : Bool) (_hdone : g.status = "completed") :
    (g.current_turn = "team_a" →
      (applyTurn g c).current_turn = "team_b" ∧
      (applyTurn g c).current_round = g.current_round) ∧
    (g.current_turn = "team_b" →
      (applyTurn g c).current_turn = "team_a" ∧
      (applyTurn g c).current_round = g.current_round + 1) ∧
    (c = true → g.current_turn = "team_a" →
      (applyTurn g c).team_a.score = g.team_a.score + 1) ∧
    (c = true → g.current_turn = "team_b" →
      (applyTurn g c).team_b.score = g.team_b.score + 1) ∧
    ((applyTurn g c).current_round > g.settings.total_rounds →
      (applyTurn g c).winner = some
        (if (applyTurn g c).team_a.score > (applyTurn g c).team_b.score then "Team A"
         else if (applyTurn g c).team_b.score > (applyTurn g c).team_a.score then "Team B"
         else "Draw")) := by
  refine ⟨applyTurn_turn_round_a g c, ?_, ?_, ?_, ?_⟩
  · intro hb
    exact applyTurn_turn_round_b g c (by rw [hb]; decide)
  · intro hc ha
    subst hc
    rw [applyTurn_team_a, scoreStep_true_a g ha]
  · intro hc hb
    subst hc
    rw [applyTurn_team_b, scoreStep_true_b g (by rw [hb]; decide)]
  · intro hr
    rw [← applyTurn_settings g c] at hr
    exact (applyTurn_finish g c hr).2

theorem claim_C9_witness :
    gDone.status = "completed" ∧
    (applyTurn gDone true).current_turn = "team_b" ∧
    (applyTurn gDone true).current_round = gDone.current_round ∧
    (applyTurn gDone true).team_a.score = gDone.team_a.score + 1 := by
  have h := claim_C9 gDone true rfl
  exact ⟨rfl, (h.1 rfl).1, (h.1 rfl).2, h.2.2.1 rfl rfl⟩

/-- C5 is false of the code: in `stC5` every easy movie is in the
posited global used set, so the spec's eligible set is empty and its
selector (first conjunct) resets the global set to `[]` before
returning; the handler (second conjunct) neither consults nor clears
any global set — it returns the movie with the store unchanged, its
global component still `["m1"]` (third conjunct). -/
theorem claim_C5_counterexample :
    selectRandomMovieSpec stC5.movies stC5.global_used "easy" [] =
      Except.ok ([mEasy1], []) ∧
    getRandomMovieOp stC5 "easy" none = Except.ok ([mEasy1], stC5) ∧
    stC5.global_used = ["m1"] :=
  ⟨rfl, rfl, rfl⟩

/-- C5 amended: `get_random_movie` keeps no global used set and resets
nothing — it never writes the store, fails with NotFound exactly when
no movie matches the difficulty filter minus the caller exclusions, and
otherwise draws from precisely that set. -/
theorem claim_C5_amended (st : ServerState) (d : String) (ex : Option String) :
    (getRandomMovieOp st d ex = Except.error "No movies available" ↔
      st.movies.filter (movieQuery d ex) = []) ∧
    (∀ pool st', getRandomMovieOp st d ex = Except.ok (pool, st') →
      st' = st ∧ pool ≠ [] ∧ ∀ m ∈ pool, movieQuery d ex m = true) := by
  unfold getRandomMovieOp get_random_movie
  by_cases he : (st.movies.filter (movieQuery d ex)).take 1000 = []
  · rw [if_pos (by rw [he]; rfl)]
    constructor
    · simp only [true_iff]
      rcases List.take_eq_nil_iff.mp he with h | h
      · exact absurd h (by decide)
      · exact h
    · intro pool st' h
      simp at h
  · rw [if_neg (by simpa [List.isEmpty_iff] using he)]
    constructor
    · constructor
      · intro h
        simp at h
      · intro h
        exact absurd (by rw [h]; rfl) he
    · intro pool st' h
      simp only [Except.ok.injEq, Prod.mk.injEq] at h
      obtain ⟨hp, hs⟩ := h
      refine ⟨hs.symm, ?_, ?_⟩
      · rw [← hp]; exact he
      · intro m hm
        rw [← hp] at hm
        exact List.of_mem_filter (List.take_subset _ _ hm)

theorem claim_C5_amended_witness :
    getRandomMovieOp stEmpty "easy" none = Except.error "No movies available" :=
  (claim_C5_amended stEmpty "easy" none).1.mpr rfl

/-- C6: any movie the selector can return under difficulty filter
d ∈ {easy, medium, hard} matches that difficulty and is not among the
caller-excluded ids. -/
theorem claim_C6 (movies : List Movie) (d : String) (ex : Option String)
    (pool : List Movie) (m : Movie)
    (hd : d = "easy" ∨ d = "medium" ∨ d = "hard")
    (hok : get_random_movie movies d ex = Except.ok pool)
    (hm : m ∈ pool) :
    m.difficulty = d ∧ m.id ∉ excludeListOf ex := by
  unfold get_random_movie at hok
  split at hok
  · simp at hok
  · simp only [Except.ok.injEq] at hok
    rw [← hok] at hm
    have hq : movieQuery d ex m = true :=
      List.of_mem_filter (List.take_subset _ _ hm)
    unfold movieQuery at hq
    simp only [Bool.and_eq_true, Bool.or_eq_true, decide_eq_true_eq] at hq
    obtain ⟨hq1, hq2⟩ := hq
    refine ⟨?_, hq2⟩
    have hne1 : ¬ d = "" := by rcases hd with rfl | rfl | rfl <;> decide
    have hne2 : ¬ d = "all" := by rcases hd with rfl | rfl | rfl <;> decide
    rcases hq1 with (h | h) | h
    · exact absurd h hne1
    · exact absurd h hne2
    · exact h

theorem claim_C6_witness :
    get_random_movie [mEasy1] "easy" none = Except.ok [mEasy1] ∧
    mEasy1.difficulty = "easy" ∧ mEasy1.id ∉ excludeListOf none :=
  ⟨rfl, claim_C6 [mEasy1] "easy" none [mEasy1] mEasy1 (Or.inl rfl) rfl
    (by simp)⟩

/-- C7 is false of the code: in `gEx` the active team (team_a) has two
players, yet an incorrect `submit_turn` leaves team_a's entire record —
and team_b's — unchanged, so no acting-player index is advanced (the
`Team` model carries no such index at all). -/
theorem claim_C7_counterexample :
    gEx.current_turn = "team_a" ∧ gEx.team_a.players.length = 2 ∧
    (applyTurn gEx false).team_a = gEx.team_a ∧
    (applyTurn gEx false).team_b = gEx.team_b := by
  refine ⟨rfl, rfl, ?_, ?_⟩ <;> decide

/-- C7 amended: `submit_turn` tracks no acting-player rotation: for
either value of `correct` both teams' player lists and names are
unchanged, and an incorrect turn leaves both team records entirely
unchanged (only a correct turn changes anything in a team, namely its
score). -/
theorem claim_C7_amended (g : Game) (c : Bool) :
    ((applyTurn g c).team_a.players = g.team_a.players ∧
     (applyTurn g c).team_b.players = g.team_b.players ∧
     (applyTurn g c).team_a.name = g.team_a.name ∧
     (applyTurn g c).team_b.name = g.team_b.name) ∧
    ((applyTurn g false).team_a = g.team_a ∧
     (applyTurn g false).team_b = g.team_b) := by
  constructor
  · rw [applyTurn_team_a, applyTurn_team_b]
    exact ⟨(scoreStep_fields g c).2.2.2.2.2.1,
      (scoreStep_fields g c).2.2.2.2.2.2.1,
      (scoreStep_fields g c).2.2.2.2.2.2.2.1,
      (scoreStep_fields g c).2.2.2.2.2.2.2.2⟩
  · rw [applyTurn_team_a, applyTurn_team_b, scoreStep_false]
    exact ⟨rfl, rfl⟩

theorem pushUsed_mem (gid mid : String) (gs : List Game)
    (h : (gs.any fun g => g.id = gid) = true) :
    ∃ g, g ∈ gs ∧ g.id = gid ∧
      { g with used_movie_ids := g.used_movie_ids ++ [mid] } ∈
        pushUsed gid mid gs := by
  induction gs with
  | nil => simp at h
  | cons g gs ih =>
      by_cases hg : g.id = gid
      · refine ⟨g, List.mem_cons_self g gs, hg, ?_⟩
        simp only [pushUsed, if_pos hg]
        exact List.mem_cons_self _ _
      · have h' : (gs.any fun g => g.id = gid) = true := by
          simp only [List.any_cons, Bool.or_eq_true, decide_eq_true_eq] at h
          rcases h with h | h
          · exact absurd h hg
          · exact h
        obtain ⟨g0, hmem, hid, hin⟩ := ih h'
        refine ⟨g0, List.mem_cons_of_mem _ hmem, hid, ?_⟩
        simp only [pushUsed, if_neg hg]
        exact List.mem_cons_of_mem _ hin

/-- C8 is false of the code: recording movie "m1" as used for game "g1"
appends it to that game's `used_movie_ids` but marks nothing globally —
the posited global used set stays empty and the selector can still
return the movie afterwards. -/
theorem claim_C8_counterexample :
    add_used_movie stC8 "g1" "m1" = Except.ok stC8after ∧
    (stC8after.games.map fun g => g.used_movie_ids) = [["m1"]] ∧
    stC8after.global_used = [] ∧
    getRandomMovieOp stC8after "easy" none =
      Except.ok ([mEasy1], stC8after) :=
  ⟨rfl, rfl, rfl, rfl⟩

/-- C8 amended: `add_used_movie` appends movieId to the matched game's
per-game `used_movie_ids` list (duplicates permitted — the append is
unconditional) and fails with NotFound when no game with gameId exists;
it updates no other collection, in particular no global used set. -/
theorem claim_C8_amended (st : ServerState) (gid mid : String) :
    ((st.games.any fun g => g.id = gid) = false →
      add_used_movie st gid mid = Except.error "Game not found") ∧
    (∀ st', add_used_movie st gid mid = Except.ok st' →
      st'.movies = st.movies ∧ st'.global_used = st.global_used ∧
      st'.games = pushUsed gid mid st.games) ∧
    ((st.games.any fun g => g.id = gid) = true →
      ∃ g, g ∈ st.games ∧ g.id = gid ∧
        { g with used_movie_ids := g.used_movie_ids ++ [mid] } ∈
          pushUsed gid mid st.games) := by
  refine ⟨fun hf => ?_, fun st' h => ?_,
    fun ht => pushUsed_mem gid mid st.games ht⟩
  · unfold add_used_movie
    rw [if_neg (by rw [hf]; simp)]
  · unfold add_used_movie at h
    split at h
    · cases h
      exact ⟨rfl, rfl, rfl⟩
    · simp at h

theorem claim_C8_amended_witness :
    (stC8.games.any fun g => g.id = "g1") = true ∧
    stC8after.movies = stC8.movies ∧
    stC8after.global_used = stC8.global_used ∧
    stC8after.games = pushUsed "g1" "m1" stC8.games :=
  ⟨rfl, (claim_C8_amended stC8 "g1" "m1").2.1 stC8after rfl⟩

/-- C10 (implicit): game creation accepts empty player lists for both
teams, and `submit_turn` on such a game still succeeds and performs the
normal transition — the embedded transition does no per-player index
arithmetic, so the empty-team case raises nothing. -/
theorem claim_C10 (gid : String) (pidA pidB : Nat → String)
    (s : GameSettings) (c : Bool) :
    (create_game gid pidA pidB [] [] s).team_a.players = [] ∧
    (create_game gid pidA pidB [] [] s).team_b.players = [] ∧
    (create_game gid pidA pidB [] [] s).status = "active" ∧
    (applyTurn (create_game gid pidA pidB [] [] s) c).current_turn = "team_b" ∧
    (applyTurn (create_game gid pidA pidB [] [] s) c).current_round = 1 ∧
    (applyTurn (create_game gid pidA pidB [] [] s) c).team_a.score =
      (if c then 1 else 0) := by
  refine ⟨rfl, rfl, rfl, ?_, ?_, ?_⟩
  · exact (applyTurn_turn_round_a _ c rfl).1
  · exact (applyTurn_turn_round_a _ c rfl).2
  · rw [applyTurn_team_a]
    cases c
    · rw [scoreStep_false]
      rfl
    · rw [scoreStep_true_a _ rfl]
      rfl

end Charades
